import Mathlib

/-
Verification of the Eventbrite/Coda pack sync logic.

The repository contains several near-duplicate pack variants.  The two that
carry the pagination / retry / validation design are embedded here:

  * the full-drain SyncRegistrations execute (coda-script.js, the variant with
    the while-loop, 429 retry handling and the hasMore/no-token guard);
  * the single-page SyncRegistrations execute (the TypeScript variant with
    eventId validation and the continuation ternary).

JavaScript builtins used by the source (String.trim, parseInt, Array.join,
Array.filter(Boolean), Date parsing / toISOString) are modelled explicitly
below; Date parsing is modelled on the ISO-8601 UTC profile, which is the
only format the ECMAScript standard requires Date to accept.
-/

namespace Codapack

/-! ## JavaScript string builtins -/

/-- Core whitespace characters recognised by the JS builtins modelled here. -/
def isJsWs (c : Char) : Bool :=
  c = ' ' || c = '\t' || c = '\n' || c = '\r'

/-- Remove leading and trailing whitespace from a character list. -/
def trimChars (l : List Char) : List Char :=
  ((l.dropWhile isJsWs).reverse.dropWhile isJsWs).reverse

/-- Model of JS String.prototype.trim. -/
def jsTrim (s : String) : String :=
  String.mk (trimChars s.data)

def digitVal (c : Char) : Nat := c.toNat - '0'.toNat

def digitsToNat (l : List Char) : Nat :=
  l.foldl (fun a c => a * 10 + digitVal c) 0

/-- Leading run of decimal digits of a character list. -/
def leadingDigits (l : List Char) : List Char :=
  l.takeWhile Char.isDigit

/-- Digits read by parseInt at the current position; none models NaN. -/
def parseIntDigits (l : List Char) : Option Int :=
  match leadingDigits l with
  | [] => none
  | ds => some (Int.ofNat (digitsToNat ds))

/-- Model of JS parseInt(s, 10): skip whitespace, optional sign, leading
digit run; none models NaN (no digits found). -/
def parseIntBase10 (s : String) : Option Int :=
  match s.data.dropWhile isJsWs with
  | '-' :: rest => (parseIntDigits rest).map (fun n => -n)
  | '+' :: rest => parseIntDigits rest
  | l => parseIntDigits l

/-- Model of the JS expression (v || d) for a possibly-absent string v:
undefined and the empty string are falsy. -/
def jsOrDefault (v : Option String) (d : String) : String :=
  match v with
  | none => d
  | some s => if s = "" then d else s

/-- retryAfterSeconds computation of the full-drain variant:
parseInt(String(retryAfterValue || "5"), 10).  A none result models NaN
(the header was present, non-empty, and had no leading integer). -/
def retryAfterSecondsOf (header : Option String) : Option Int :=
  parseIntBase10 (jsOrDefault header "5")

/-! ## JS Date model (ISO-8601 UTC profile) -/

structure DateParts where
  year : Nat
  month : Nat
  day : Nat
  hour : Nat
  minute : Nat
  second : Nat
  ms : Nat
deriving Repr, DecidableEq

def isLeap (y : Nat) : Bool :=
  (y % 4 == 0 && y % 100 != 0) || y % 400 == 0

def daysInMonth (y m : Nat) : Nat :=
  if m = 2 then (if isLeap y then 29 else 28)
  else if m = 4 ∨ m = 6 ∨ m = 9 ∨ m = 11 then 30
  else 31

/-- Build a date from the digit characters of an ISO string, rejecting
out-of-range fields (an out-of-range ISO string is an Invalid Date in JS). -/
def mkDate (y1 y2 y3 y4 m1 m2 d1 d2 h1 h2 n1 n2 t1 t2 : Char) (ms : Nat) :
    Option DateParts :=
  if ([y1, y2, y3, y4, m1, m2, d1, d2, h1, h2, n1, n2, t1, t2].all Char.isDigit) then
    let y := digitsToNat [y1, y2, y3, y4]
    let mo := digitsToNat [m1, m2]
    let d := digitsToNat [d1, d2]
    let h := digitsToNat [h1, h2]
    let mi := digitsToNat [n1, n2]
    let se := digitsToNat [t1, t2]
    if 1 ≤ mo ∧ mo ≤ 12 ∧ 1 ≤ d ∧ d ≤ daysInMonth y mo ∧ h ≤ 23 ∧ mi ≤ 59 ∧ se ≤ 59 then
      some ⟨y, mo, d, h, mi, se, ms⟩
    else none
  else none

/-- Model of new Date(s) restricted to the ISO-8601 UTC profile
(YYYY-MM-DDTHH:MM:SSZ, optionally with .mmm milliseconds); any other
string is an unparseable (Invalid) date. -/
def parseIsoUtc (s : String) : Option DateParts :=
  match s.data with
  | [y1, y2, y3, y4, '-', m1, m2, '-', d1, d2, 'T',
     h1, h2, ':', n1, n2, ':', t1, t2, 'Z'] =>
      mkDate y1 y2 y3 y4 m1 m2 d1 d2 h1 h2 n1 n2 t1 t2 0
  | [y1, y2, y3, y4, '-', m1, m2, '-', d1, d2, 'T',
     h1, h2, ':', n1, n2, ':', t1, t2, '.', a, b, c, 'Z'] =>
      if ([a, b, c].all Char.isDigit) then
        mkDate y1 y2 y3 y4 m1 m2 d1 d2 h1 h2 n1 n2 t1 t2 (digitsToNat [a, b, c])
      else none
  | _ => none

def pad2 (n : Nat) : String :=
  if n < 10 then "0" ++ toString n else toString n

def pad3 (n : Nat) : String :=
  if n < 10 then "00" ++ toString n
  else if n < 100 then "0" ++ toString n else toString n

def pad4 (n : Nat) : String :=
  if n < 10 then "000" ++ toString n
  else if n < 100 then "00" ++ toString n
  else if n < 1000 then "0" ++ toString n else toString n

/-- Model of Date.prototype.toISOString on a valid UTC date. -/
def toIsoString (d : DateParts) : String :=
  pad4 d.year ++ "-" ++ pad2 d.month ++ "-" ++ pad2 d.day ++ "T" ++
  pad2 d.hour ++ ":" ++ pad2 d.minute ++ ":" ++ pad2 d.second ++ "." ++
  pad3 d.ms ++ "Z"

/-- Model of new Date(s).toISOString(): none models the thrown RangeError
on an Invalid Date. -/
def dateToISOString (s : String) : Option String :=
  (parseIsoUtc s).map toIsoString

/-! ## Data model -/

structure Profile where
  first_name : String
  last_name : String
  email : String
deriving Repr, DecidableEq

structure Attendee where
  id : String
  profile : Profile
  event_id : String
  status : String
  created : String
  ticket_class_name : String
deriving Repr, DecidableEq

structure Pagination where
  has_more_items : Bool
  continuation : Option String
deriving Repr, DecidableEq

/-- One scripted Source API response, as the execute functions observe it:
status code, optional retry-after header, optional error_description, and a
body whose pagination / attendees fields may be absent (none models both a
missing field and, for attendees, a non-array value). -/
structure HttpResponse where
  status : Nat
  retryAfter : Option String := none
  errorDescription : Option String := none
  pagination : Option Pagination := none
  attendees : Option (List Attendee) := none
deriving Repr, DecidableEq

structure Registration where
  id : String
  name : String
  email : String
  eventId : String
  status : String
  registered : String
  ticket : String
deriving Repr, DecidableEq

/-- JS truthiness of a possibly-absent continuation token: undefined and
the empty string are falsy. -/
def tokenTruthy : Option String → Bool
  | none => false
  | some s => s != ""

/-- Errors thrown by the embedded execute functions.  environmentExhausted is
a model artifact: the scripted response list ran out while the loop still
wanted a page. -/
inductive SyncError where
  | rateLimitExceeded
  | apiError (status : Nat) (errorDescription : Option String)
  | missingPagination
  | attendeesNotArray
  | invalidResponseFormat
  | invalidDate (created : String)
  | emptyEventId
  | invalidEventId (given : String)
  | environmentExhausted
deriving Repr, DecidableEq

/-- Error kinds the spec classifies as ProtocolError: response shape
violations and unparseable timestamps. -/
def isProtocolError : SyncError → Bool
  | .missingPagination => true
  | .attendeesNotArray => true
  | .invalidResponseFormat => true
  | .invalidDate _ => true
  | _ => false

/-- Error kinds the spec classifies as InvalidArgument: resource identifier
validation failures. -/
def isInvalidArgument : SyncError → Bool
  | .emptyEventId => true
  | .invalidEventId _ => true
  | _ => false

/-! ## Row mappers -/

/-- Model of Array.prototype.join(" "). -/
def joinSpace : List String → String
  | [] => ""
  | [s] => s
  | s :: rest => s ++ " " ++ joinSpace rest

/-- Name built by the single-page variant:
[first, last].filter(Boolean).join(" ").trim(). -/
def filterJoinName (first last : String) : String :=
  jsTrim (joinSpace ([first, last].filter (fun s => s != "")))

/-- Display name of the single-page variant, with the placeholder fallback
(the JS || operator treats the empty string as falsy). -/
def displayNameSinglePage (first last : String) : String :=
  let j := filterJoinName first last
  if j = "" then "Unnamed Attendee" else j

/-- Display name of the full-drain variant, a template string:
(first + " " + last).trim(), with no placeholder fallback. -/
def displayNameFullDrain (first last : String) : String :=
  jsTrim (first ++ " " ++ last)

/-- Row mapping of the single-page variant; the date conversion is the only
failure path (new Date(created).toISOString() throws on an Invalid Date). -/
def mapAttendeeSingle (a : Attendee) : Except SyncError Registration :=
  match dateToISOString a.created with
  | none => .error (.invalidDate a.created)
  | some iso => .ok
      { id := a.id
        name := displayNameSinglePage a.profile.first_name a.profile.last_name
        email := a.profile.email
        eventId := a.event_id
        status := a.status
        registered := iso
        ticket := a.ticket_class_name }

/-- Row mapping of the full-drain variant (template-string name). -/
def mapAttendeeFull (a : Attendee) : Except SyncError Registration :=
  match dateToISOString a.created with
  | none => .error (.invalidDate a.created)
  | some iso => .ok
      { id := a.id
        name := displayNameFullDrain a.profile.first_name a.profile.last_name
        email := a.profile.email
        eventId := a.event_id
        status := a.status
        registered := iso
        ticket := a.ticket_class_name }

/-- Array.prototype.map with a throwing mapper: elements are mapped left to
right and the first thrown error aborts the whole map. -/
def mapAttendeesWith (f : Attendee → Except SyncError Registration) :
    List Attendee → Except SyncError (List Registration)
  | [] => .ok []
  | a :: rest =>
    match f a with
    | .error e => .error e
    | .ok r =>
      match mapAttendeesWith f rest with
      | .error e => .error e
      | .ok rs => .ok (r :: rs)

def mapAttendeesSingle : List Attendee → Except SyncError (List Registration) :=
  mapAttendeesWith mapAttendeeSingle

def mapAttendeesFull : List Attendee → Except SyncError (List Registration) :=
  mapAttendeesWith mapAttendeeFull

/-! ## Resource identifier validation -/

/-- Test of the regular expression /^\d+$/ on a string. -/
def allDigits (s : String) : Bool :=
  !s.data.isEmpty && s.data.all Char.isDigit

/-- First match capture of /(\d+)/: the first maximal run of digits. -/
def digitRunAt : List Char → Option (List Char)
  | [] => none
  | c :: rest =>
    if c.isDigit then some (c :: rest.takeWhile Char.isDigit)
    else digitRunAt rest

/-- First match capture of /eid=(\d+)/: the digit run after the first
occurrence of "eid=" that is immediately followed by a digit. -/
def eidRunAt : List Char → Option (List Char)
  | [] => none
  | c :: rest =>
    if c = 'e' then
      match rest with
      | 'i' :: 'd' :: '=' :: d :: tail =>
        if d.isDigit then some (d :: tail.takeWhile Char.isDigit)
        else eidRunAt rest
      | _ => eidRunAt rest
    else eidRunAt rest

/-- eventId validation of the single-page variant: reject empty/blank input,
accept a pure numeric string, else extract via the eid= query pattern. -/
def validateEventIdSingle (eventId : String) : Except SyncError String :=
  if eventId = "" ∨ jsTrim eventId = "" then .error .emptyEventId
  else if allDigits eventId then .ok eventId
  else
    match eidRunAt eventId.data with
    | some d => .ok (String.mk d)
    | none => .error (.invalidEventId eventId)

/-- eventId validation of the other single-page variant: accept a pure
numeric string, else extract the first digit run via /(\d+)/. -/
def validateEventIdTs (eventId : String) : Except SyncError String :=
  if allDigits eventId then .ok eventId
  else
    match digitRunAt eventId.data with
    | some d => .ok (String.mk d)
    | none => .error (.invalidEventId eventId)

/-! ## Full-drain SyncRegistrations driver

The while-loop of the full-drain execute, embedded as structural recursion on
the list of scripted Source API responses.  A Trace records the observable
side effects: the continuation token attached to each issued fetch, the
retry-after value of each sleep (none models NaN), and the number of
protocol-violation warnings logged. -/

structure Trace where
  fetches : List (Option String)
  waits : List (Option Int)
  warnings : Nat
deriving Repr, DecidableEq

inductive LoopOut where
  | done (attendees : List Attendee)
  | fail (e : SyncError)
  | starved
deriving Repr, DecidableEq

def maxRetries : Nat := 3

/-- Continuation token actually attached to the request URL: the loop sets
the query parameter only when the current continuation value is truthy. -/
def attachTok (c : Option String) : Option String :=
  if tokenTruthy c then c else none

/-- One run of the full-drain while loop from a given loop state
(current continuation, accumulated attendees, retry counter), consuming
scripted responses in order. -/
def drainLoop : List HttpResponse → Option String → List Attendee → Nat →
    Trace × LoopOut
  | [], _, _, _ => (⟨[], [], 0⟩, .starved)
  | r :: rest, continuation, acc, retryCount =>
    let tok := attachTok continuation
    if r.status = 429 then
      if retryCount < maxRetries then
        let w := retryAfterSecondsOf r.retryAfter
        let q := drainLoop rest continuation acc (retryCount + 1)
        (⟨tok :: q.1.fetches, w :: q.1.waits, q.1.warnings⟩, q.2)
      else
        (⟨[tok], [], 0⟩, .fail .rateLimitExceeded)
    else if 400 ≤ r.status then
      (⟨[tok], [], 0⟩, .fail (.apiError r.status r.errorDescription))
    else
      match r.pagination with
      | none => (⟨[tok], [], 0⟩, .fail .missingPagination)
      | some pg =>
        match r.attendees with
        | none => (⟨[tok], [], 0⟩, .fail .attendeesNotArray)
        | some items =>
          if pg.has_more_items then
            if tokenTruthy pg.continuation then
              let q := drainLoop rest pg.continuation (acc ++ items) retryCount
              (⟨tok :: q.1.fetches, q.1.waits, q.1.warnings⟩, q.2)
            else
              (⟨[tok], [], 1⟩, .done (acc ++ items))
          else
            (⟨[tok], [], 0⟩, .done (acc ++ items))

/-- Result shape of a sync execute: mapped rows plus the continuation handed
back to the host.  The full-drain variant returns an object with no
continuation property, i.e. continuation none. -/
structure SyncResult where
  rows : List Registration
  continuation : Option String
deriving Repr, DecidableEq

/-- The full-drain SyncRegistrations execute: run the while loop from the
initial state (no continuation, empty accumulator, retry counter 0), then map
the accumulated attendees to rows.  This variant performs no eventId
validation and never emits a continuation. -/
def syncRegistrationsFullDrain (responses : List HttpResponse) :
    Trace × Except SyncError SyncResult :=
  let t := drainLoop responses none [] 0
  match t.2 with
  | .starved => (t.1, .error .environmentExhausted)
  | .fail e => (t.1, .error e)
  | .done acc =>
    match mapAttendeesFull acc with
    | .error e => (t.1, .error e)
    | .ok rows => (t.1, .ok ⟨rows, none⟩)

/-! ## Single-page SyncRegistrations driver -/

instance {ε α : Type} [DecidableEq ε] [DecidableEq α] : DecidableEq (Except ε α) :=
  fun a b =>
    match a, b with
    | .error e, .error f =>
      if h : e = f then .isTrue (congrArg Except.error h)
      else .isFalse (fun hh => h (Except.error.inj hh))
    | .ok x, .ok y =>
      if h : x = y then .isTrue (congrArg Except.ok h)
      else .isFalse (fun hh => h (Except.ok.inj hh))
    | .error _, .ok _ => .isFalse (fun hh => Except.noConfusion hh)
    | .ok _, .error _ => .isFalse (fun hh => Except.noConfusion hh)

structure SinglePageRun where
  fetches : List (Option String)
  result : Except SyncError SyncResult
deriving Repr, DecidableEq

/-- The single-page SyncRegistrations execute: validate the eventId, issue
exactly one fetch with the caller-supplied sync continuation, validate the
response shape (a single combined check), map the rows, and hand back the
pagination token through the ternary
has_more_items && continuation ? continuation : null. -/
def syncRegistrationsSinglePage (eventId : String) (startToken : Option String)
    (resp : HttpResponse) : SinglePageRun :=
  match validateEventIdSingle eventId with
  | .error e => ⟨[], .error e⟩
  | .ok _ =>
    let tok := attachTok startToken
    match resp.pagination with
    | none => ⟨[tok], .error .invalidResponseFormat⟩
    | some pg =>
      match resp.attendees with
      | none => ⟨[tok], .error .invalidResponseFormat⟩
      | some items =>
        match mapAttendeesSingle items with
        | .error e => ⟨[tok], .error e⟩
        | .ok rows =>
          ⟨[tok], .ok ⟨rows,
            if pg.has_more_items && tokenTruthy pg.continuation
            then pg.continuation else none⟩⟩

/-! ## Scripted page environments -/

/-- One successful Source API page: the items and the pagination metadata. -/
structure Page where
  attendees : List Attendee
  has_more_items : Bool
  continuation : Option String
deriving Repr, DecidableEq

/-- The scripted 200 response delivering a page. -/
def pageResponse (p : Page) : HttpResponse :=
  { status := 200
    pagination := some ⟨p.has_more_items, p.continuation⟩
    attendees := some p.attendees }

def pagesEnv (ps : List Page) : List HttpResponse :=
  ps.map pageResponse

/-- A scripted 429 response with an optional retry-after header. -/
def rlResponse (h : Option String) : HttpResponse :=
  { status := 429, retryAfter := h }

/-- Continuation state after draining a list of continuing pages, starting
from token c: the last page's token, or c when there is no page. -/
def contAfter (c : Option String) : List Page → Option String
  | [] => c
  | p :: rest => contAfter p.continuation rest

/-- Fetch tokens issued while draining a list of continuing pages starting
from token c. -/
def leadFetches (c : Option String) : List Page → List (Option String)
  | [] => []
  | p :: rest => attachTok c :: leadFetches p.continuation rest

/-- All items of a list of pages, pages in order and items in within-page
order. -/
def pagesItems : List Page → List Attendee
  | [] => []
  | p :: rest => p.attendees ++ pagesItems rest

/-! ## Basic lemmas -/

theorem attachTok_truthy {c : Option String} (h : tokenTruthy c = true) :
    attachTok c = c := by
  simp [attachTok, h]

theorem drainLoop_rl (r : HttpResponse) (rest : List HttpResponse)
    (c : Option String) (acc : List Attendee) (k : Nat)
    (hs : r.status = 429) (hk : k < maxRetries) :
    drainLoop (r :: rest) c acc k =
      (⟨attachTok c :: (drainLoop rest c acc (k + 1)).1.fetches,
        retryAfterSecondsOf r.retryAfter :: (drainLoop rest c acc (k + 1)).1.waits,
        (drainLoop rest c acc (k + 1)).1.warnings⟩,
       (drainLoop rest c acc (k + 1)).2) := by
  simp [drainLoop, hs, hk]

theorem drainLoop_rl_exhausted (r : HttpResponse) (rest : List HttpResponse)
    (c : Option String) (acc : List Attendee) (k : Nat)
    (hs : r.status = 429) (hk : ¬ k < maxRetries) :
    drainLoop (r :: rest) c acc k =
      (⟨[attachTok c], [], 0⟩, .fail .rateLimitExceeded) := by
  simp [drainLoop, hs, hk]

theorem drainLoop_hard (r : HttpResponse) (rest : List HttpResponse)
    (c : Option String) (acc : List Attendee) (k : Nat)
    (hs : r.status ≠ 429) (h4 : 400 ≤ r.status) :
    drainLoop (r :: rest) c acc k =
      (⟨[attachTok c], [], 0⟩, .fail (.apiError r.status r.errorDescription)) := by
  simp [drainLoop, hs, h4]

theorem drainLoop_noPagination (r : HttpResponse) (rest : List HttpResponse)
    (c : Option String) (acc : List Attendee) (k : Nat)
    (hs : r.status ≠ 429) (h4 : ¬ 400 ≤ r.status) (hp : r.pagination = none) :
    drainLoop (r :: rest) c acc k =
      (⟨[attachTok c], [], 0⟩, .fail .missingPagination) := by
  simp [drainLoop, hs, h4, hp]

theorem drainLoop_noAttendees (r : HttpResponse) (rest : List HttpResponse)
    (c : Option String) (acc : List Attendee) (k : Nat) (pg : Pagination)
    (hs : r.status ≠ 429) (h4 : ¬ 400 ≤ r.status) (hp : r.pagination = some pg)
    (ha : r.attendees = none) :
    drainLoop (r :: rest) c acc k =
      (⟨[attachTok c], [], 0⟩, .fail .attendeesNotArray) := by
  simp [drainLoop, hs, h4, hp, ha]

theorem drainLoop_page_continue (p : Page) (rest : List HttpResponse)
    (c : Option String) (acc : List Attendee) (k : Nat)
    (h1 : p.has_more_items = true) (h2 : tokenTruthy p.continuation = true) :
    drainLoop (pageResponse p :: rest) c acc k =
      (⟨attachTok c :: (drainLoop rest p.continuation (acc ++ p.attendees) k).1.fetches,
        (drainLoop rest p.continuation (acc ++ p.attendees) k).1.waits,
        (drainLoop rest p.continuation (acc ++ p.attendees) k).1.warnings⟩,
       (drainLoop rest p.continuation (acc ++ p.attendees) k).2) := by
  simp [drainLoop, pageResponse, h1, h2]

theorem drainLoop_page_warn (p : Page) (rest : List HttpResponse)
    (c : Option String) (acc : List Attendee) (k : Nat)
    (h1 : p.has_more_items = true) (h2 : tokenTruthy p.continuation = false) :
    drainLoop (pageResponse p :: rest) c acc k =
      (⟨[attachTok c], [], 1⟩, .done (acc ++ p.attendees)) := by
  simp [drainLoop, pageResponse, h1, h2]

theorem drainLoop_page_stop (p : Page) (rest : List HttpResponse)
    (c : Option String) (acc : List Attendee) (k : Nat)
    (h1 : p.has_more_items = false) :
    drainLoop (pageResponse p :: rest) c acc k =
      (⟨[attachTok c], [], 0⟩, .done (acc ++ p.attendees)) := by
  simp [drainLoop, pageResponse, h1]

/-- Draining a block of continuing pages reaches the remaining script with
the last supplied token, all page items appended in order, and the retry
counter unchanged. -/
theorem drain_continuing (ps : List Page) :
    ∀ (tail : List HttpResponse) (c : Option String) (acc : List Attendee) (k : Nat),
    (∀ p ∈ ps, p.has_more_items = true ∧ tokenTruthy p.continuation = true) →
    drainLoop (pagesEnv ps ++ tail) c acc k =
      (⟨leadFetches c ps ++
          (drainLoop tail (contAfter c ps) (acc ++ pagesItems ps) k).1.fetches,
        (drainLoop tail (contAfter c ps) (acc ++ pagesItems ps) k).1.waits,
        (drainLoop tail (contAfter c ps) (acc ++ pagesItems ps) k).1.warnings⟩,
       (drainLoop tail (contAfter c ps) (acc ++ pagesItems ps) k).2) := by
  induction ps with
  | nil =>
    intro tail c acc k _
    simp [pagesEnv, leadFetches, contAfter, pagesItems]
  | cons p rest ih =>
    intro tail c acc k hps
    have hp := hps p (by simp)
    have hrest : ∀ q ∈ rest, q.has_more_items = true ∧ tokenTruthy q.continuation = true :=
      fun q hq => hps q (by simp [hq])
    have hstep := drainLoop_page_continue p (pagesEnv rest ++ tail) c acc k hp.1 hp.2
    have hih := ih tail p.continuation (acc ++ p.attendees) k hrest
    simp only [pagesEnv, List.map_cons, List.cons_append] at hstep ⊢
    rw [hstep]
    simp only [pagesEnv] at hih
    rw [hih]
    simp [leadFetches, contAfter, pagesItems, List.append_assoc]

/-- Length of the item concatenation of pages of uniform size. -/
theorem pagesItems_length (ps : List Page) (K : Nat)
    (h : ∀ p ∈ ps, p.attendees.length = K) :
    (pagesItems ps).length = ps.length * K := by
  induction ps with
  | nil => simp [pagesItems]
  | cons p rest ih =>
    have := h p (by simp)
    simp [pagesItems, this, ih (fun q hq => h q (by simp [hq])), Nat.succ_mul,
      Nat.add_comm]

/-- A throwing map preserves the length when it succeeds. -/
theorem mapAttendeesWith_length (f : Attendee → Except SyncError Registration) :
    ∀ (l : List Attendee) (r : List Registration),
    mapAttendeesWith f l = .ok r → r.length = l.length := by
  intro l
  induction l with
  | nil => intro r h; simp [mapAttendeesWith] at h; simp [← h]
  | cons a rest ih =>
    intro r h
    simp only [mapAttendeesWith] at h
    cases hfa : f a with
    | error e => rw [hfa] at h; exact absurd h (by simp)
    | ok v =>
      rw [hfa] at h
      cases hrest : mapAttendeesWith f rest with
      | error e => rw [hrest] at h; exact absurd h (by simp)
      | ok rs =>
        rw [hrest] at h
        have : r = v :: rs := by
          have := h; injection this with h2; exact h2.symm
        subst this
        simp [ih rs hrest]

/-- The single-page mapper fails on exactly the attendees whose created
timestamp does not parse. -/
theorem mapAttendeeSingle_error_iff (a : Attendee) :
    (∃ e, mapAttendeeSingle a = .error e) ↔ dateToISOString a.created = none := by
  cases h : dateToISOString a.created <;> simp [mapAttendeeSingle, h]

/-- The single-page map over a list fails exactly when some attendee's
created timestamp does not parse. -/
theorem mapAttendeesSingle_error_iff (items : List Attendee) :
    (∃ e, mapAttendeesSingle items = .error e) ↔
      ∃ a ∈ items, dateToISOString a.created = none := by
  induction items with
  | nil => simp [mapAttendeesSingle, mapAttendeesWith]
  | cons a rest ih =>
    simp only [mapAttendeesSingle, mapAttendeesWith] at *
    cases hfa : mapAttendeeSingle a with
    | error e =>
      have : dateToISOString a.created = none :=
        (mapAttendeeSingle_error_iff a).mp ⟨e, hfa⟩
      simp [hfa, this]
    | ok v =>
      have hnone : ¬ dateToISOString a.created = none := by
        intro hn
        rcases (mapAttendeeSingle_error_iff a).mpr hn with ⟨e, he⟩
        rw [hfa] at he; exact Except.noConfusion he
      cases hrest : mapAttendeesWith mapAttendeeSingle rest with
      | error e =>
        have : ∃ a ∈ rest, dateToISOString a.created = none := ih.mp ⟨e, hrest⟩
        simp [hfa, hrest, this, hnone]
      | ok rs =>
        have : ¬ ∃ a ∈ rest, dateToISOString a.created = none := by
          intro hx
          rcases ih.mpr hx with ⟨e, he⟩
          rw [hrest] at he; exact Except.noConfusion he
        simp [hfa, hrest, hnone]
        intro x hx hd
        exact this ⟨x, hx, hd⟩

theorem drainLoop_success_continue (r : HttpResponse) (rest : List HttpResponse)
    (c : Option String) (acc : List Attendee) (k : Nat) (pg : Pagination)
    (items : List Attendee)
    (hs : r.status ≠ 429) (h4 : ¬ 400 ≤ r.status) (hp : r.pagination = some pg)
    (ha : r.attendees = some items)
    (h1 : pg.has_more_items = true) (h2 : tokenTruthy pg.continuation = true) :
    drainLoop (r :: rest) c acc k =
      (⟨attachTok c :: (drainLoop rest pg.continuation (acc ++ items) k).1.fetches,
        (drainLoop rest pg.continuation (acc ++ items) k).1.waits,
        (drainLoop rest pg.continuation (acc ++ items) k).1.warnings⟩,
       (drainLoop rest pg.continuation (acc ++ items) k).2) := by
  simp [drainLoop, hs, h4, hp, ha, h1, h2]

theorem drainLoop_success_warn (r : HttpResponse) (rest : List HttpResponse)
    (c : Option String) (acc : List Attendee) (k : Nat) (pg : Pagination)
    (items : List Attendee)
    (hs : r.status ≠ 429) (h4 : ¬ 400 ≤ r.status) (hp : r.pagination = some pg)
    (ha : r.attendees = some items)
    (h1 : pg.has_more_items = true) (h2 : tokenTruthy pg.continuation = false) :
    drainLoop (r :: rest) c acc k =
      (⟨[attachTok c], [], 1⟩, .done (acc ++ items)) := by
  simp [drainLoop, hs, h4, hp, ha, h1, h2]

theorem drainLoop_success_stop (r : HttpResponse) (rest : List HttpResponse)
    (c : Option String) (acc : List Attendee) (k : Nat) (pg : Pagination)
    (items : List Attendee)
    (hs : r.status ≠ 429) (h4 : ¬ 400 ≤ r.status) (hp : r.pagination = some pg)
    (ha : r.attendees = some items)
    (h1 : pg.has_more_items = false) :
    drainLoop (r :: rest) c acc k =
      (⟨[attachTok c], [], 0⟩, .done (acc ++ items)) := by
  simp [drainLoop, hs, h4, hp, ha, h1]

/-- The number of sleeps performed by one run of the while loop is bounded by
the remaining retry budget: the counter is shared, never reset. -/
theorem drainLoop_waits_length (responses : List HttpResponse) :
    ∀ (c : Option String) (acc : List Attendee) (k : Nat),
    (drainLoop responses c acc k).1.waits.length ≤ maxRetries - k := by
  induction responses with
  | nil => intro c acc k; simp [drainLoop]
  | cons r rest ih =>
    intro c acc k
    by_cases hs : r.status = 429
    · by_cases hk : k < maxRetries
      · rw [drainLoop_rl r rest c acc k hs hk]
        have := ih c acc (k + 1)
        simp only [List.length_cons]
        omega
      · rw [drainLoop_rl_exhausted r rest c acc k hs hk]; simp
    · by_cases h4 : 400 ≤ r.status
      · rw [drainLoop_hard r rest c acc k hs h4]; simp
      · cases hp : r.pagination with
        | none => rw [drainLoop_noPagination r rest c acc k hs h4 hp]; simp
        | some pg =>
          cases ha : r.attendees with
          | none => rw [drainLoop_noAttendees r rest c acc k pg hs h4 hp ha]; simp
          | some items =>
            by_cases h1 : pg.has_more_items
            · by_cases h2 : tokenTruthy pg.continuation
              · rw [drainLoop_success_continue r rest c acc k pg items hs h4 hp ha h1 h2]
                exact ih pg.continuation (acc ++ items) k
              · rw [drainLoop_success_warn r rest c acc k pg items hs h4 hp ha h1
                  (by simpa using h2)]
                simp
            · rw [drainLoop_success_stop r rest c acc k pg items hs h4 hp ha
                (by simpa using h1)]
              simp

/-- Every fetch token issued while draining a success-only script is either
the attached start token or one of the tokens supplied by the pages. -/
theorem drain_fetch_mem (ps : List Page) :
    ∀ (c : Option String) (acc : List Attendee) (k : Nat) (x : Option String),
    x ∈ (drainLoop (pagesEnv ps) c acc k).1.fetches →
    x = attachTok c ∨ x ∈ ps.map Page.continuation := by
  induction ps with
  | nil => intro c acc k x hx; simp [pagesEnv, drainLoop] at hx
  | cons p rest ih =>
    intro c acc k x hx
    have henv : pagesEnv (p :: rest) = pageResponse p :: pagesEnv rest := by
      simp [pagesEnv]
    by_cases h1 : p.has_more_items
    · by_cases h2 : tokenTruthy p.continuation
      · rw [henv, drainLoop_page_continue p (pagesEnv rest) c acc k h1 h2] at hx
        simp only [List.mem_cons] at hx
        rcases hx with h | h
        · exact Or.inl h
        · rcases ih p.continuation (acc ++ p.attendees) k x h with h' | h'
          · right; rw [attachTok_truthy h2] at h'; simp [h']
          · right; simp [h']
      · rw [henv, drainLoop_page_warn p (pagesEnv rest) c acc k h1
          (by simpa using h2)] at hx
        simp only [List.mem_cons, List.not_mem_nil, or_false] at hx
        exact Or.inl hx
    · rw [henv, drainLoop_page_stop p (pagesEnv rest) c acc k
        (by simpa using h1)] at hx
      simp only [List.mem_cons, List.not_mem_nil, or_false] at hx
      exact Or.inl hx

/-- With pairwise-distinct supplied tokens, none of them equal to the start
token, a success-only drain never issues two fetches with the same token. -/
theorem drain_fetch_nodup (ps : List Page) :
    ∀ (c : Option String) (acc : List Attendee) (k : Nat),
    (ps.map Page.continuation).Nodup →
    attachTok c ∉ ps.map Page.continuation →
    (drainLoop (pagesEnv ps) c acc k).1.fetches.Nodup := by
  induction ps with
  | nil => intro c acc k _ _; simp [pagesEnv, drainLoop]
  | cons p rest ih =>
    intro c acc k hnd hc
    have henv : pagesEnv (p :: rest) = pageResponse p :: pagesEnv rest := by
      simp [pagesEnv]
    simp only [List.map_cons, List.nodup_cons, List.mem_cons] at hnd hc
    push_neg at hc
    by_cases h1 : p.has_more_items
    · by_cases h2 : tokenTruthy p.continuation
      · rw [henv, drainLoop_page_continue p (pagesEnv rest) c acc k h1 h2]
        refine List.nodup_cons.mpr ⟨?_, ?_⟩
        · intro hmem
          rcases drain_fetch_mem rest p.continuation (acc ++ p.attendees) k
              (attachTok c) hmem with h' | h'
          · rw [attachTok_truthy h2] at h'
            exact hc.1 h'
          · exact hc.2 h'
        · exact ih p.continuation (acc ++ p.attendees) k hnd.2
            (by rw [attachTok_truthy h2]; exact hnd.1)
      · rw [henv, drainLoop_page_warn p (pagesEnv rest) c acc k h1
          (by simpa using h2)]
        simp
    · rw [henv, drainLoop_page_stop p (pagesEnv rest) c acc k
        (by simpa using h1)]
      simp

/-- Every error of the single-page map is a ProtocolError kind. -/
theorem mapAttendeesSingle_error_protocol :
    ∀ (items : List Attendee) (e : SyncError),
    mapAttendeesSingle items = .error e → isProtocolError e = true := by
  intro items
  induction items with
  | nil => intro e h; simp [mapAttendeesSingle, mapAttendeesWith] at h
  | cons a rest ih =>
    intro e h
    simp only [mapAttendeesSingle, mapAttendeesWith] at h
    cases hfa : mapAttendeeSingle a with
    | error f =>
      rw [hfa] at h
      injection h with h2
      subst h2
      cases hd : dateToISOString a.created with
      | none => simp [mapAttendeeSingle, hd] at hfa; simp [← hfa, isProtocolError]
      | some s => simp [mapAttendeeSingle, hd] at hfa
    | ok v =>
      rw [hfa] at h
      cases hrest : mapAttendeesWith mapAttendeeSingle rest with
      | error f =>
        rw [hrest] at h
        injection h with h2
        subst h2
        exact ih f hrest
      | ok rs => rw [hrest] at h; exact Except.noConfusion h

theorem pagesItems_append (xs ys : List Page) :
    pagesItems (xs ++ ys) = pagesItems xs ++ pagesItems ys := by
  induction xs with
  | nil => simp [pagesItems]
  | cons p rest ih => simp [pagesItems, ih]

/-- The trace of the full-drain execute is the trace of its while loop. -/
theorem syncFullDrain_trace (rs : List HttpResponse) :
    (syncRegistrationsFullDrain rs).1 = (drainLoop rs none [] 0).1 := by
  unfold syncRegistrationsFullDrain
  rcases h : (drainLoop rs none [] 0).2 with acc | e | _
  · rcases hm : mapAttendeesFull acc with e | rows <;> simp [h, hm]
  · simp [h]
  · simp [h]

theorem syncFullDrain_fail (rs : List HttpResponse) (e : SyncError)
    (h : (drainLoop rs none [] 0).2 = .fail e) :
    (syncRegistrationsFullDrain rs).2 = .error e := by
  simp [syncRegistrationsFullDrain, h]

theorem syncFullDrain_done (rs : List HttpResponse) (acc : List Attendee)
    (rows : List Registration)
    (h : (drainLoop rs none [] 0).2 = .done acc)
    (hm : mapAttendeesFull acc = .ok rows) :
    (syncRegistrationsFullDrain rs).2 = .ok ⟨rows, none⟩ := by
  simp [syncRegistrationsFullDrain, h, hm]

/-- Four consecutive rate-limited responses from retry counter 0: the loop
sleeps three times, refetches the same token each time, and fails without a
fifth fetch. -/
theorem drainLoop_rl4 (a b c d : Option String) (rest : List HttpResponse)
    (cont : Option String) (acc : List Attendee) :
    drainLoop (rlResponse a :: rlResponse b :: rlResponse c ::
        rlResponse d :: rest) cont acc 0 =
      (⟨[attachTok cont, attachTok cont, attachTok cont, attachTok cont],
        [retryAfterSecondsOf a, retryAfterSecondsOf b, retryAfterSecondsOf c],
        0⟩,
       .fail .rateLimitExceeded) := by
  simp [drainLoop, rlResponse, maxRetries]

theorem allDigits_eq_false (s : String) (h : ∀ ch ∈ s.data, ch.isDigit = false) :
    allDigits s = false := by
  unfold allDigits
  cases hd : s.data with
  | nil => simp [hd]
  | cons c rest =>
    have hc := h c (by rw [hd]; exact List.mem_cons_self c rest)
    simp [hd, hc]

theorem digitRunAt_none (l : List Char) (h : ∀ ch ∈ l, ch.isDigit = false) :
    digitRunAt l = none := by
  induction l with
  | nil => rfl
  | cons c rest ih =>
    have hc := h c (List.mem_cons_self c rest)
    simp only [digitRunAt, hc, Bool.false_eq_true, if_false]
    exact ih (fun ch hch => h ch (List.mem_cons_of_mem c hch))

theorem eidRunAt_none (l : List Char) (h : ∀ ch ∈ l, ch.isDigit = false) :
    eidRunAt l = none := by
  induction l with
  | nil => rfl
  | cons c rest ih =>
    have hrest : ∀ ch ∈ rest, ch.isDigit = false :=
      fun ch hch => h ch (List.mem_cons_of_mem c hch)
    simp only [eidRunAt]
    by_cases hc : c = 'e'
    · rw [if_pos hc]
      split
      · rename_i d tail
        have hd : d.isDigit = false := by
          apply hrest d
          simp
        rw [if_neg (by simp [hd])]
        exact ih hrest
      · exact ih hrest
    · rw [if_neg hc]
      exact ih hrest

/-- Prepending a space does not change the trimmed value. -/
theorem jsTrim_space_append (s : String) : jsTrim (" " ++ s) = jsTrim s := by
  have hd : (" " ++ s).data = ' ' :: s.data := by
    simp [String.data_append]
  simp [jsTrim, trimChars, hd, List.dropWhile_cons, isJsWs]

/-! ## Claim theorems -/

/-- C1: against a Source API behaviour of N continuing pages (each reporting
more items with a usable token) followed by a final page reporting
has_more_items false, with K items per page, the full-drain sync returns
exactly N×K mapped rows — pages in fetch order and items in within-page
order — and continuation none. -/
theorem C1_full_drain_all_rows (ps : List Page) (plast : Page) (K : Nat)
    (rows : List Registration)
    (hcont : ∀ p ∈ ps, p.has_more_items = true ∧ tokenTruthy p.continuation = true)
    (hlast : plast.has_more_items = false)
    (hK : ∀ p ∈ ps ++ [plast], p.attendees.length = K)
    (hmap : mapAttendeesFull (pagesItems (ps ++ [plast])) = .ok rows) :
    (syncRegistrationsFullDrain (pagesEnv (ps ++ [plast]))).2 = .ok ⟨rows, none⟩ ∧
    rows.length = (ps ++ [plast]).length * K := by
  have henv : pagesEnv (ps ++ [plast]) = pagesEnv ps ++ [pageResponse plast] := by
    simp [pagesEnv]
  have hout : (drainLoop (pagesEnv (ps ++ [plast])) none [] 0).2 =
      .done (pagesItems (ps ++ [plast])) := by
    rw [henv, drain_continuing ps [pageResponse plast] none [] 0 hcont]
    rw [drainLoop_page_stop plast [] (contAfter none ps) ([] ++ pagesItems ps) 0 hlast]
    simp [pagesItems_append, pagesItems]
  refine ⟨syncFullDrain_done _ _ _ hout hmap, ?_⟩
  have hlen := mapAttendeesWith_length mapAttendeeFull _ rows hmap
  rw [hlen]
  exact pagesItems_length _ K hK

/-- C1 witness: two pages of one attendee each drain to exactly the two
mapped rows, in order, with continuation none. -/
theorem C1_full_drain_all_rows_witness :
    (syncRegistrationsFullDrain (pagesEnv
      [⟨[⟨"a1", ⟨"Ann", "Lee", "ann@x"⟩, "9", "Attending",
            "2021-03-04T05:06:07Z", "GA"⟩], true, some "tok1"⟩,
       ⟨[⟨"a2", ⟨"Bob", "Kim", "bob@x"⟩, "9", "Attending",
            "2021-03-04T05:06:08Z", "GA"⟩], false, none⟩])).2 =
      .ok ⟨[⟨"a1", "Ann Lee", "ann@x", "9", "Attending",
              "2021-03-04T05:06:07.000Z", "GA"⟩,
            ⟨"a2", "Bob Kim", "bob@x", "9", "Attending",
              "2021-03-04T05:06:08.000Z", "GA"⟩], none⟩ ∧
    ([⟨"a1", "Ann Lee", "ann@x", "9", "Attending",
        "2021-03-04T05:06:07.000Z", "GA"⟩,
      ⟨"a2", "Bob Kim", "bob@x", "9", "Attending",
        "2021-03-04T05:06:08.000Z", "GA"⟩] : List Registration).length = 2 * 1 :=
  C1_full_drain_all_rows
    [⟨[⟨"a1", ⟨"Ann", "Lee", "ann@x"⟩, "9", "Attending",
        "2021-03-04T05:06:07Z", "GA"⟩], true, some "tok1"⟩]
    ⟨[⟨"a2", ⟨"Bob", "Kim", "bob@x"⟩, "9", "Attending",
        "2021-03-04T05:06:08Z", "GA"⟩], false, none⟩ 1
    [⟨"a1", "Ann Lee", "ann@x", "9", "Attending",
        "2021-03-04T05:06:07.000Z", "GA"⟩,
     ⟨"a2", "Bob Kim", "bob@x", "9", "Attending",
        "2021-03-04T05:06:08.000Z", "GA"⟩]
    (by decide) (by decide) (by decide) (by decide)

/-- C3: a page reporting has_more_items true with an absent or empty token
makes the full-drain loop log one warning and terminate instead of fetching
again, and the sync returns successfully with the rows accumulated so far
and continuation none. -/
theorem C3_no_token_guard (items : List Attendee) (bad : Option String)
    (rest : List HttpResponse) (c : Option String) (acc : List Attendee)
    (k : Nat) (rows : List Registration)
    (hbad : tokenTruthy bad = false)
    (hmap : mapAttendeesFull items = .ok rows) :
    drainLoop (pageResponse ⟨items, true, bad⟩ :: rest) c acc k =
      (⟨[attachTok c], [], 1⟩, .done (acc ++ items)) ∧
    (syncRegistrationsFullDrain [pageResponse ⟨items, true, bad⟩]).2 =
      .ok ⟨rows, none⟩ ∧
    (syncRegistrationsFullDrain [pageResponse ⟨items, true, bad⟩]).1 =
      ⟨[none], [], 1⟩ := by
  refine ⟨drainLoop_page_warn ⟨items, true, bad⟩ rest c acc k rfl hbad, ?_, ?_⟩
  · exact syncFullDrain_done _ ([] ++ items) rows
      (by rw [drainLoop_page_warn ⟨items, true, bad⟩ [] none [] 0 rfl hbad]) hmap
  · rw [syncFullDrain_trace,
      drainLoop_page_warn ⟨items, true, bad⟩ [] none [] 0 rfl hbad]
    rfl

/-- C3 witness: the guard at the concrete one-page environment with a
missing token. -/
theorem C3_no_token_guard_witness :
    drainLoop [pageResponse ⟨[], true, none⟩] none [] 0 =
      (⟨[none], [], 1⟩, .done []) ∧
    (syncRegistrationsFullDrain [pageResponse ⟨[], true, none⟩]).2 =
      .ok ⟨[], none⟩ ∧
    (syncRegistrationsFullDrain [pageResponse ⟨[], true, none⟩]).1 =
      ⟨[none], [], 1⟩ :=
  C3_no_token_guard [] none [] none [] 0 [] rfl rfl

/-- C2 counterexample: after a rate-limited response the full-drain driver
refetches the page with the same continuation token, so one sync issues two
page fetches with the same token — the claimed invariant fails. -/
theorem C2_counterexample :
    (syncRegistrationsFullDrain
      [pageResponse ⟨[], true, some "t"⟩, rlResponse none,
       pageResponse ⟨[], false, none⟩]).1.fetches = [none, some "t", some "t"] ∧
    ¬ (syncRegistrationsFullDrain
      [pageResponse ⟨[], true, some "t"⟩, rlResponse none,
       pageResponse ⟨[], false, none⟩]).1.fetches.Nodup := by
  decide

/-- C2 amended: the single-page driver emits a non-null continuation only
when the fetched page reported has_more_items true with a non-empty token;
the full-drain driver always returns continuation none; and, while the
full-drain driver refetches the same token when retrying after a
rate-limited response (and follows whatever token the Source API supplies),
in a sync whose responses are all successful pages with pairwise-distinct
non-null supplied tokens it never issues two fetches with the same token. -/
theorem C2_amended :
    (∀ (id : String) (st : Option String) (resp : HttpResponse) (r : SyncResult),
      (syncRegistrationsSinglePage id st resp).result = .ok r →
      ∀ t, r.continuation = some t →
      ∃ pg, resp.pagination = some pg ∧ pg.has_more_items = true ∧
        pg.continuation = some t ∧ t ≠ "") ∧
    (∀ (responses : List HttpResponse) (r : SyncResult),
      (syncRegistrationsFullDrain responses).2 = .ok r → r.continuation = none) ∧
    (∀ ps : List Page, (ps.map Page.continuation).Nodup →
      (none : Option String) ∉ ps.map Page.continuation →
      (syncRegistrationsFullDrain (pagesEnv ps)).1.fetches.Nodup) := by
  refine ⟨?_, ?_, ?_⟩
  · intro id st resp r hok t hcont
    rcases hv : validateEventIdSingle id with e | nid
    · simp [syncRegistrationsSinglePage, hv] at hok
    · rcases hp : resp.pagination with _ | pg
      · simp [syncRegistrationsSinglePage, hv, hp] at hok
      · rcases ha : resp.attendees with _ | items
        · simp [syncRegistrationsSinglePage, hv, hp, ha] at hok
        · rcases hm : mapAttendeesSingle items with e | rows
          · simp [syncRegistrationsSinglePage, hv, hp, ha, hm] at hok
          · simp only [syncRegistrationsSinglePage, hv, hp, ha, hm] at hok
            have hr : r = ⟨rows,
                if pg.has_more_items && tokenTruthy pg.continuation
                then pg.continuation else none⟩ := by
              cases hok
              rfl
            subst hr
            simp only [] at hcont
            by_cases hc : pg.has_more_items && tokenTruthy pg.continuation
            · rw [if_pos hc] at hcont
              simp only [Bool.and_eq_true] at hc
              rcases hc with ⟨hm1, hm2⟩
              refine ⟨pg, rfl, hm1, hcont, ?_⟩
              rw [hcont] at hm2
              simpa [tokenTruthy] using hm2
            · rw [if_neg hc] at hcont
              exact absurd hcont (by simp)
  · intro responses r hok
    rcases h : (drainLoop responses none [] 0).2 with acc | e | _
    · rcases hm : mapAttendeesFull acc with e | rows
      · simp [syncRegistrationsFullDrain, h, hm] at hok
      · simp only [syncRegistrationsFullDrain, h, hm] at hok
        have : r = ⟨rows, none⟩ := by
          cases hok
          rfl
        rw [this]
    · simp [syncRegistrationsFullDrain, h] at hok
    · simp [syncRegistrationsFullDrain, h] at hok
  · intro ps h1 h2
    rw [syncFullDrain_trace]
    exact drain_fetch_nodup ps none [] 0 h1 (by simpa [attachTok, tokenTruthy] using h2)

/-- C2 amended witness: the emission condition at a concrete successful
single page, and distinct fetch tokens for a concrete two-page drain. -/
theorem C2_amended_witness :
    (∃ pg, (⟨200, none, none, some ⟨true, some "t"⟩,
        some []⟩ : HttpResponse).pagination = some pg ∧
      pg.has_more_items = true ∧ pg.continuation = some "t" ∧ "t" ≠ "") ∧
    (syncRegistrationsFullDrain
      (pagesEnv [⟨[], true, some "a"⟩, ⟨[], false, some "b"⟩])).1.fetches.Nodup :=
  ⟨C2_amended.1 "123" none
      ⟨200, none, none, some ⟨true, some "t"⟩, some []⟩
      ⟨[], some "t"⟩ (by decide) "t" rfl,
   C2_amended.2.2 [⟨[], true, some "a"⟩, ⟨[], false, some "b"⟩]
      (by decide) (by decide)⟩

/-- C4: a rate-limited outcome below the retry bound makes the driver sleep
for the hinted duration and refetch the same page with the same token; four
consecutive rate-limited outcomes from a fresh counter fail with the
rate-limit-exceeded error after exactly four fetches (never a fifth); and
rate limiting on the first two attempts of a page followed by success
succeeds after exactly the two hinted waits. -/
theorem C4_rate_limit_retry :
    (∀ (a b c d : Option String) (rest : List HttpResponse),
      (syncRegistrationsFullDrain (rlResponse a :: rlResponse b :: rlResponse c ::
          rlResponse d :: rest)).2 = .error .rateLimitExceeded ∧
      (syncRegistrationsFullDrain (rlResponse a :: rlResponse b :: rlResponse c ::
          rlResponse d :: rest)).1.fetches = [none, none, none, none]) ∧
    (∀ (h1 h2 : String) (p : Page) (rows : List Registration),
      p.has_more_items = false →
      mapAttendeesFull p.attendees = .ok rows →
      (syncRegistrationsFullDrain [pageResponse ⟨[], true, some "s"⟩,
          rlResponse (some h1), rlResponse (some h2), pageResponse p]).2 =
        .ok ⟨rows, none⟩ ∧
      (syncRegistrationsFullDrain [pageResponse ⟨[], true, some "s"⟩,
          rlResponse (some h1), rlResponse (some h2), pageResponse p]).1.fetches =
        [none, some "s", some "s", some "s"] ∧
      (syncRegistrationsFullDrain [pageResponse ⟨[], true, some "s"⟩,
          rlResponse (some h1), rlResponse (some h2), pageResponse p]).1.waits =
        [retryAfterSecondsOf (some h1), retryAfterSecondsOf (some h2)]) := by
  constructor
  · intro a b c d rest
    have h4 := drainLoop_rl4 a b c d rest none []
    refine ⟨syncFullDrain_fail _ _ (by rw [h4]), ?_⟩
    rw [syncFullDrain_trace, h4]
    rfl
  · intro h1 h2 p rows hlast hmap
    have e1 := drainLoop_page_continue ⟨[], true, some "s"⟩
      [rlResponse (some h1), rlResponse (some h2), pageResponse p] none [] 0
      rfl (by decide)
    have e2 := drainLoop_rl (rlResponse (some h1))
      [rlResponse (some h2), pageResponse p] (some "s") ([] ++ []) 0
      rfl (by decide)
    have e3 := drainLoop_rl (rlResponse (some h2))
      [pageResponse p] (some "s") ([] ++ []) (0 + 1)
      rfl (by decide)
    have e4 := drainLoop_page_stop p [] (some "s") ([] ++ []) (0 + 1 + 1) hlast
    have hstep : drainLoop [pageResponse ⟨[], true, some "s"⟩,
        rlResponse (some h1), rlResponse (some h2), pageResponse p] none [] 0 =
        (⟨[none, some "s", some "s", some "s"],
          [retryAfterSecondsOf (some h1), retryAfterSecondsOf (some h2)], 0⟩,
         .done p.attendees) := by
      rw [e1, e2, e3, e4]
      rfl
    refine ⟨syncFullDrain_done _ p.attendees rows (by rw [hstep]) hmap, ?_, ?_⟩
    · rw [syncFullDrain_trace, hstep]
    · rw [syncFullDrain_trace, hstep]

/-- C4 witness: the retry policy at concrete scripts — four 429s, and two
429s with hint 2 followed by a final empty page. -/
theorem C4_rate_limit_retry_witness :
    (syncRegistrationsFullDrain [rlResponse none, rlResponse none,
        rlResponse none, rlResponse none]).2 = .error .rateLimitExceeded ∧
    (syncRegistrationsFullDrain [pageResponse ⟨[], true, some "s"⟩,
        rlResponse (some "2"), rlResponse (some "2"),
        pageResponse ⟨[], false, none⟩]).1.waits =
      [retryAfterSecondsOf (some "2"), retryAfterSecondsOf (some "2")] ∧
    retryAfterSecondsOf (some "2") = some 2 :=
  ⟨(C4_rate_limit_retry.1 none none none none []).1,
   ((C4_rate_limit_retry.2 "2" "2" ⟨[], false, none⟩ [] rfl rfl).2).2,
   by decide⟩

/-- C5 counterexample: the retry budget is not fresh per page — after two
rate-limited retries on page one, the second rate-limited outcome on page
two already exhausts the budget and the sync fails, where a fresh per-page
budget of three would have retried and succeeded. -/
theorem C5_counterexample :
    (syncRegistrationsFullDrain
      [rlResponse none, rlResponse none, pageResponse ⟨[], true, some "t"⟩,
       rlResponse none, rlResponse none, pageResponse ⟨[], false, none⟩]).2 =
      .error .rateLimitExceeded ∧
    (syncRegistrationsFullDrain
      [rlResponse none, rlResponse none, pageResponse ⟨[], true, some "t"⟩,
       rlResponse none, rlResponse none, pageResponse ⟨[], false, none⟩]).1.fetches =
      [none, none, none, some "t", some "t"] := by
  decide

/-- C5 amended: the retry counter is shared across the whole sync rather
than reset per page: from counter k the loop performs at most
maxRetries − k further sleeps, and a whole full-drain invocation performs
at most maxRetries (3) sleeps in total, retries consumed on earlier pages
reducing the budget left for later pages. -/
theorem C5_amended :
    (∀ (responses : List HttpResponse) (c : Option String)
        (acc : List Attendee) (k : Nat),
      (drainLoop responses c acc k).1.waits.length ≤ maxRetries - k) ∧
    (∀ responses : List HttpResponse,
      (syncRegistrationsFullDrain responses).1.waits.length ≤ maxRetries) := by
  constructor
  · intro rs c acc k
    exact drainLoop_waits_length rs c acc k
  · intro rs
    rw [syncFullDrain_trace]
    simpa using drainLoop_waits_length rs none [] 0

/-- C6: the wait hint honours a parseable retry-after header ("7" gives 7,
"12" gives 12) and falls back to 5 seconds when the header is absent or
empty; but a present, non-empty, unparseable header ("abc") yields NaN
(modelled none) — the loop then sleeps no time at all instead of the
documented 5-second default, contradicting the source's own comment. -/
theorem C6_retry_after_parsing :
    retryAfterSecondsOf none = some 5 ∧
    retryAfterSecondsOf (some "") = some 5 ∧
    retryAfterSecondsOf (some "7") = some 7 ∧
    retryAfterSecondsOf (some "12") = some 12 ∧
    retryAfterSecondsOf (some "abc") = none ∧
    (syncRegistrationsFullDrain [rlResponse (some "abc"),
      pageResponse ⟨[], false, none⟩]).1.waits = [none] := by
  decide

/-- C7: an empty or blank resource identifier fails with an
InvalidArgument-kind error before any fetch; an identifier with no digits at
all fails with an InvalidArgument-kind error under both validation variants;
and the URL form with an eid= query parameter yields the embedded numeric id
under both the eid= pattern and the digit-run pattern. -/
theorem C7_event_id_validation :
    (∀ s : String, jsTrim s = "" → validateEventIdSingle s = .error .emptyEventId) ∧
    (∀ s : String, (∀ ch ∈ s.data, ch.isDigit = false) →
      (∃ e, validateEventIdSingle s = .error e ∧ isInvalidArgument e = true) ∧
      (∃ e, validateEventIdTs s = .error e ∧ isInvalidArgument e = true)) ∧
    validateEventIdSingle "https://x/?eid=1234567890" = .ok "1234567890" ∧
    validateEventIdTs "https://x/?eid=1234567890" = .ok "1234567890" ∧
    (∀ (st : Option String) (resp : HttpResponse),
      syncRegistrationsSinglePage "" st resp = ⟨[], .error .emptyEventId⟩) := by
  refine ⟨?_, ?_, by decide, by decide, ?_⟩
  · intro s h
    unfold validateEventIdSingle
    rw [if_pos (Or.inr h)]
  · intro s h
    constructor
    · by_cases he : s = "" ∨ jsTrim s = ""
      · exact ⟨.emptyEventId, by unfold validateEventIdSingle; rw [if_pos he], rfl⟩
      · refine ⟨.invalidEventId s, ?_, rfl⟩
        simp [validateEventIdSingle, he, allDigits_eq_false s h, eidRunAt_none s.data h]
    · refine ⟨.invalidEventId s, ?_, rfl⟩
      simp [validateEventIdTs, allDigits_eq_false s h, digitRunAt_none s.data h]
  · intro st resp
    have hv : validateEventIdSingle "" = .error .emptyEventId := by decide
    simp [syncRegistrationsSinglePage, hv]

/-- C7 witness: the validation outcomes at the concrete identifiers of the
claim — no digits, and a blank string. -/
theorem C7_event_id_validation_witness :
    (∃ e, validateEventIdSingle "abc" = .error e ∧ isInvalidArgument e = true) ∧
    (∃ e, validateEventIdTs "abc" = .error e ∧ isInvalidArgument e = true) ∧
    validateEventIdSingle "   " = .error .emptyEventId :=
  ⟨(C7_event_id_validation.2.1 "abc" (by decide)).1,
   (C7_event_id_validation.2.1 "abc" (by decide)).2,
   C7_event_id_validation.1 "   " (by decide)⟩

/-- C8 counterexample: the full-drain (template-string) mapper gives an
attendee with empty first and last name the empty display name, not the
fixed placeholder, so the placeholder clause of the claim fails on that
variant. -/
theorem C8_counterexample :
    (mapAttendeeFull ⟨"a1", ⟨"", "", "x@y"⟩, "9", "Attending",
      "2020-01-02T03:04:05Z", "GA"⟩).map Registration.name = .ok "" ∧
    ("" : String) ≠ "Unnamed Attendee" := by
  decide

/-- C8 amended: the filter-and-join (single-page) mapper joins first and
last name with one space, trims, and falls back to the placeholder when the
result is empty — in particular an attendee with only a last name maps to
that last name trimmed; the template-string (full-drain) mapper also joins
with one space and trims but yields the empty string, not the placeholder,
when both names are empty. -/
theorem C8_amended :
    displayNameSinglePage "" "" = "Unnamed Attendee" ∧
    displayNameFullDrain "" "" = "" ∧
    (∀ last : String, displayNameSinglePage "" last =
      if jsTrim last = "" then "Unnamed Attendee" else jsTrim last) ∧
    (∀ last : String, displayNameFullDrain "" last = jsTrim last) ∧
    (∀ first last : String,
      displayNameFullDrain first last = jsTrim (first ++ " " ++ last)) := by
  refine ⟨by decide, by decide, ?_, ?_, fun f l => rfl⟩
  · intro last
    by_cases hl : last = ""
    · subst hl; decide
    · have hfil : ([("" : String), last].filter (fun s => s != "")) = [last] := by
        simp [List.filter_cons, hl]
      simp [displayNameSinglePage, filterJoinName, hfil, joinSpace]
  · intro last
    have h0 : ("" ++ " " : String) = " " := by decide
    show jsTrim ("" ++ " " ++ last) = jsTrim last
    rw [h0, jsTrim_space_append]

/-- C9: given a valid resource identifier, the single-page sync fails with a
ProtocolError-kind error exactly when the response is missing its pagination
metadata, its attendees collection, or contains an attendee whose creation
timestamp does not parse (in which case it fails rather than passing the
invalid value through); in the full-drain loop a malformed response is fatal
on the very fetch that received it, with no retry; and neither rate-limit
exhaustion nor an API hard failure is a ProtocolError kind. -/
theorem C9_protocol_errors :
    (∀ (id : String) (st : Option String) (resp : HttpResponse) (nid : String),
      validateEventIdSingle id = .ok nid →
      ((∃ e, (syncRegistrationsSinglePage id st resp).result = .error e ∧
          isProtocolError e = true) ↔
        (resp.pagination = none ∨ resp.attendees = none ∨
          ∃ a ∈ resp.attendees.getD [], dateToISOString a.created = none))) ∧
    (∀ (rest : List HttpResponse) (c : Option String) (acc : List Attendee)
        (k : Nat),
      drainLoop ((⟨200, none, none, none, none⟩ : HttpResponse) :: rest) c acc k =
        (⟨[attachTok c], [], 0⟩, .fail .missingPagination)) ∧
    (∀ (rest : List HttpResponse) (c : Option String) (acc : List Attendee)
        (k : Nat) (pg : Pagination),
      drainLoop ((⟨200, none, none, some pg, none⟩ : HttpResponse) :: rest) c acc k =
        (⟨[attachTok c], [], 0⟩, .fail .attendeesNotArray)) ∧
    isProtocolError .rateLimitExceeded = false ∧
    (∀ (s : Nat) (d : Option String), isProtocolError (.apiError s d) = false) := by
  refine ⟨?_, ?_, ?_, rfl, fun s d => rfl⟩
  · intro id st resp nid hv
    rcases hp : resp.pagination with _ | pg
    · simp [syncRegistrationsSinglePage, hv, hp, isProtocolError]
    · rcases ha : resp.attendees with _ | items
      · simp [syncRegistrationsSinglePage, hv, hp, ha, isProtocolError]
      · rcases hm : mapAttendeesSingle items with e | rows
        · have hproto := mapAttendeesSingle_error_protocol items e hm
          have hbad : ∃ a ∈ items, dateToISOString a.created = none :=
            (mapAttendeesSingle_error_iff items).mp ⟨e, hm⟩
          simp [syncRegistrationsSinglePage, hv, hp, ha, hm, hproto, hbad]
        · have hgood : ¬ ∃ a ∈ items, dateToISOString a.created = none := by
            intro hx
            rcases (mapAttendeesSingle_error_iff items).mpr hx with ⟨e, he⟩
            rw [hm] at he
            exact Except.noConfusion he
          simp only [syncRegistrationsSinglePage, hv, hp, ha, hm]
          simpa using hgood
  · intro rest c acc k
    exact drainLoop_noPagination ⟨200, none, none, none, none⟩ rest c acc k
      (by decide) (by decide) rfl
  · intro rest c acc k pg
    exact drainLoop_noAttendees ⟨200, none, none, some pg, none⟩ rest c acc k pg
      (by simp) (by simp) rfl rfl

/-- C9 witness: a response with no pagination metadata makes the single-page
sync fail with a ProtocolError kind. -/
theorem C9_protocol_errors_witness :
    ∃ e, (syncRegistrationsSinglePage "1" none
        ⟨200, none, none, none, none⟩).result = .error e ∧
      isProtocolError e = true :=
  (C9_protocol_errors.1 "1" none ⟨200, none, none, none, none⟩ "1"
    (by decide)).mpr (Or.inl rfl)

/-- C10: when a page fetch after any run of successful continuing pages ends
in a hard failure, a malformed response, or an exhausted retry budget, the
full-drain sync returns an error and no rows at all — the rows accumulated
from the earlier pages are discarded, not returned as partial success. -/
theorem C10_failure_atomicity (ps : List Page)
    (hps : ∀ p ∈ ps, p.has_more_items = true ∧ tokenTruthy p.continuation = true) :
    (∀ (s : Nat) (d : Option String) (rest : List HttpResponse),
      s ≠ 429 → 400 ≤ s →
      ∃ e, (syncRegistrationsFullDrain
        (pagesEnv ps ++ (⟨s, none, d, none, none⟩ : HttpResponse) :: rest)).2 =
        .error e) ∧
    (∀ rest : List HttpResponse,
      ∃ e, (syncRegistrationsFullDrain
        (pagesEnv ps ++ (⟨200, none, none, none, none⟩ : HttpResponse) :: rest)).2 =
        .error e) ∧
    (∀ (a b c d : Option String) (rest : List HttpResponse),
      ∃ e, (syncRegistrationsFullDrain
        (pagesEnv ps ++ rlResponse a :: rlResponse b :: rlResponse c ::
          rlResponse d :: rest)).2 = .error e) := by
  have key : ∀ (tail : List HttpResponse) (e : SyncError),
      (∀ (c : Option String) (acc : List Attendee),
        (drainLoop tail c acc 0).2 = .fail e) →
      (syncRegistrationsFullDrain (pagesEnv ps ++ tail)).2 = .error e := by
    intro tail e htail
    apply syncFullDrain_fail
    rw [drain_continuing ps tail none [] 0 hps]
    exact htail _ _
  refine ⟨?_, ?_, ?_⟩
  · intro s d rest hs h4
    exact ⟨.apiError s d, key _ _ (fun c acc => by
      rw [drainLoop_hard _ rest c acc 0 hs h4])⟩
  · intro rest
    exact ⟨.missingPagination, key _ _ (fun c acc => by
      rw [drainLoop_noPagination _ rest c acc 0 (by decide) (by decide) rfl])⟩
  · intro a b c d rest
    exact ⟨.rateLimitExceeded, key _ _ (fun cont acc => by
      rw [drainLoop_rl4 a b c d rest cont acc])⟩

/-- C10 witness: one successful continuing page followed by a hard 500
failure yields an error result with no rows. -/
theorem C10_failure_atomicity_witness :
    ∃ e, (syncRegistrationsFullDrain
      (pagesEnv [⟨[], true, some "t"⟩] ++
        [(⟨500, none, none, none, none⟩ : HttpResponse)])).2 = .error e :=
  (C10_failure_atomicity [⟨[], true, some "t"⟩] (by decide)).1 500 none []
    (by decide) (by decide)

end Codapack
